import Mathlib

/-!
# Verification of the profile-summarizer script

A shallow embedding of `quick_profile_analysis.py`: the script decompresses a
gzip-packed profile via an external shell subprocess, parses the resulting JSON
document, and prints per-thread statistics (sample counts, wall/CPU time, top
functions by sample frequency) followed by a global summary and a hardcoded
comparison block.

Modelling conventions:
* Python lists become Lean `List`s; Python list indexing `l[i]` (which accepts
  negative indices counting from the end and raises `IndexError` otherwise)
  becomes `pyGet`, returning `none` exactly when Python would raise.
* Python floats are idealised as exact rationals `ℚ`; `int(·)` truncation
  toward zero becomes `pyInt`, and `f-string` `:.2f` rendering becomes
  `formatFixed2` (round half to even at the hundredths place).
* Fallible computations (a raised `IndexError` aborts the script) are
  modelled in `Except String`.
* Dict lookups with defaults (`thread.get('name', …)` etc.) become `Option`
  fields or fields holding the default-completed value; the truthiness test
  on the `stackTable` dict is modelled by an `Option` wrapper, and the
  `'stack' in samples` membership test by an `Option` field.
-/

/-- Python list indexing `l[i]`: a negative index counts from the end;
`none` models a raised `IndexError`. -/
def pyGet {α : Type} (l : List α) (i : Int) : Option α :=
  if 0 ≤ i ∧ i < l.length then l.get? i.toNat
  else if i < 0 ∧ 0 ≤ i + l.length then l.get? (i + l.length).toNat
  else none

/-- Python `str(b)` for a boolean, as printed by `print(f'… {is_main}')`. -/
def pyBool (b : Bool) : String := if b then "True" else "False"

/-- Python `int(q)`: truncation toward zero. -/
def pyInt (q : ℚ) : Int := if q < 0 then ⌈q⌉ else ⌊q⌋

/-- The integer of hundredths shown by Python's `:.2f` formatting of `q`:
round `q * 100` to the nearest integer, ties to even. -/
def scaledHundredths (q : ℚ) : Int :=
  let x := q * 100
  let d := ⌊x⌋
  let r := x - (d : ℚ)
  if r < 1/2 then d else if 1/2 < r then d + 1 else if d % 2 = 0 then d else d + 1

/-- Two-digit zero-padded rendering of a number of hundredths below 100. -/
def pad2 (r : Nat) : String := (if r < 10 then "0" else "") ++ toString r

/-- Python `f'\x7bq:.2f\x7d'` rendering of a (rational-idealised) float. -/
def formatFixed2 (q : ℚ) : String :=
  let n := scaledHundredths q
  let m := n.natAbs
  (if n < 0 then "-" else "") ++ toString (m / 100) ++ "." ++ pad2 (m % 100)

/-- The `samples` dict of a thread: `length`, `timeDeltas`, `threadCPUDelta`
with their `.get` defaults, and the `stack` key (`none` when absent, which is
what the `'stack' in samples` test observes). -/
structure SampleBlock where
  length : Int
  timeDeltas : List ℚ
  threadCPUDelta : List Int
  stack : Option (List (Option Int))
  deriving DecidableEq

/-- The `stackTable` dict: only its `frame` sequence is consulted. -/
structure StackTable where
  frame : List Int
  deriving DecidableEq

/-- The `frameTable` dict: only its `func` sequence is consulted. -/
structure FrameTable where
  func : List Int
  deriving DecidableEq

/-- The `funcTable` dict: only its `name` sequence is consulted. -/
structure FuncTable where
  name : List String
  deriving DecidableEq

/-- One entry of the document's `threads` sequence.  `stackTable = none`
models a missing or empty (hence falsy) `stackTable` dict; a missing
`frameTable`/`funcTable`/`samples` dict is the record with empty fields. -/
structure ThreadRecord where
  name : Option String
  isMainThread : Bool
  samples : SampleBlock
  stackTable : Option StackTable
  frameTable : FrameTable
  funcTable : FuncTable
  deriving DecidableEq

instance {ε α : Type} [DecidableEq ε] [DecidableEq α] : DecidableEq (Except ε α) :=
  fun a b =>
    match a, b with
    | .error e1, .error e2 =>
      if h : e1 = e2 then isTrue (by rw [h]) else isFalse (by simp [h])
    | .ok v1, .ok v2 =>
      if h : v1 = v2 then isTrue (by rw [h]) else isFalse (by simp [h])
    | .error _, .ok _ => isFalse (by simp)
    | .ok _, .error _ => isFalse (by simp)

/-- One step of the per-sample resolution chain (lines 66–72 of the script):
stack index → frame index → func index → name, each stage guarded only by
`idx < len(table)` before dereferencing with Python indexing semantics.
`.ok none` is a skipped sample, `.error` a raised `IndexError`. -/
def resolveOne (frames funcs : List Int) (names : List String)
    (s : Option Int) : Except String (Option String) :=
  match s with
  | none => .ok none
  | some si =>
    if si < (frames.length : Int) then
      match pyGet frames si with
      | none => .error "IndexError"
      | some fi =>
        if fi < (funcs.length : Int) then
          match pyGet funcs fi with
          | none => .error "IndexError"
          | some ki =>
            if ki < (names.length : Int) then
              match pyGet names ki with
              | none => .error "IndexError"
              | some nm => .ok (some nm)
            else .ok none
        else .ok none
    else .ok none

/-- The `for stack_idx in stackSeq` loop: collect the resolved names of all
non-skipped samples, propagating a raised `IndexError`. -/
def resolveCalls (frames funcs : List Int) (names : List String) :
    List (Option Int) → Except String (List String)
  | [] => .ok []
  | s :: rest =>
    match resolveOne frames funcs names s with
    | .error e => .error e
    | .ok none => resolveCalls frames funcs names rest
    | .ok (some nm) =>
      match resolveCalls frames funcs names rest with
      | .error e => .error e
      | .ok l => .ok (nm :: l)

/-- The distinct elements of `l` in order of first occurrence: the iteration
order of a Python `Counter` built from `l`. -/
def firstOccKeys (l : List String) : List String :=
  l.foldl (fun acc x => if x ∈ acc then acc else acc ++ [x]) []

/-- The `(element, count)` items of `Counter(l)`, in insertion order. -/
def counterItems (l : List String) : List (String × Nat) :=
  (firstOccKeys l).map (fun k => (k, l.count k))

/-- Stable descending insertion by count: an earlier item stays before a
later item of equal count. -/
def insertByCount (p : String × Nat) : List (String × Nat) → List (String × Nat)
  | [] => [p]
  | q :: qs => if q.2 ≤ p.2 then p :: q :: qs else q :: insertByCount p qs

/-- Stable sort of counter items by count, descending. -/
def sortByCountDesc : List (String × Nat) → List (String × Nat)
  | [] => []
  | p :: ps => insertByCount p (sortByCountDesc ps)

/-- `Counter(l).most_common(n)`: the `n` largest counts, descending, ties in
first-occurrence order. -/
def mostCommon (n : Nat) (l : List String) : List (String × Nat) :=
  (sortByCountDesc (counterItems l)).take n

/-- The function-frequency block of one thread (lines 56–80): guarded by the
truthiness of `stackTable` and the presence of the `stack` key, then by
non-emptiness of the stack sequence and of `funcTable.name`; produces the
`Топ-5` report lines when any names were resolved. -/
def funcAnalysis (t : ThreadRecord) : Except String (List String) :=
  match t.stackTable, t.samples.stack with
  | some st, some stackSeq =>
    let func_names := t.funcTable.name
    if stackSeq = [] ∨ func_names = [] then .ok []
    else
      match resolveCalls st.frame t.frameTable.func func_names stackSeq with
      | .error e => .error e
      | .ok func_calls =>
        if func_calls = [] then .ok []
        else .ok ("  Топ-5 функций по семплам:" ::
          (mostCommon 5 func_calls).map (fun p => "    " ++ p.1 ++ ": " ++ toString p.2))
  | _, _ => .ok []

/-- `funcAnalysis` with the `if stackSeq and func_names:` test removed — used to
settle whether those extra non-emptiness checks are observable. -/
def funcAnalysisUnchecked (t : ThreadRecord) : Except String (List String) :=
  match t.stackTable, t.samples.stack with
  | some st, some stackSeq =>
    let func_names := t.funcTable.name
    match resolveCalls st.frame t.frameTable.func func_names stackSeq with
    | .error e => .error e
    | .ok func_calls =>
      if func_calls = [] then .ok []
      else .ok ("  Топ-5 функций по семплам:" ::
        (mostCommon 5 func_calls).map (fun p => "    " ++ p.1 ++ ": " ++ toString p.2))
  | _, _ => .ok []

/-- Line 33: `thread.get('name', f'Thread \x7bi\x7d')`, `i` being the 0-based
`enumerate` index. -/
def displayName (i : Nat) (t : ThreadRecord) : String :=
  t.name.getD ("Thread " ++ toString i)

/-- The per-thread block (lines 32–82): the emitted lines together with the
thread's contributions to `total_samples` and `total_cpu_time`. -/
def analyzeThread (i : Nat) (t : ThreadRecord) :
    Except String (List String × Int × Int) :=
  let hdr := ["Поток " ++ toString (i + 1) ++ ": " ++ displayName i t,
              "  Основной поток: " ++ pyBool t.isMainThread,
              "  Количество семплов: " ++ toString t.samples.length]
  if 0 < t.samples.length then
    match funcAnalysis t with
    | .error e => .error e
    | .ok funcLines =>
      .ok (hdr
        ++ ["  Общее время: " ++ formatFixed2 t.samples.timeDeltas.sum ++ " мс",
            "  CPU время: " ++ toString t.samples.threadCPUDelta.sum ++ " мкс"]
        ++ funcLines ++ [""],
        t.samples.length, t.samples.threadCPUDelta.sum)
  else .ok (hdr ++ [""], 0, 0)

/-- The thread loop: concatenated per-thread lines and accumulated totals. -/
def analyzeThreads (i : Nat) : List ThreadRecord → Except String (List String × Int × Int)
  | [] => .ok ([], 0, 0)
  | t :: rest =>
    match analyzeThread i t with
    | .error e => .error e
    | .ok (l, s, c) =>
      match analyzeThreads (i + 1) rest with
      | .error e => .error e
      | .ok (ls, s2, c2) => .ok (l ++ ls, s + s2, c + c2)

/-- Lines 22–27: the report header and the thread-count line. -/
def headerLines (n : Nat) : List String :=
  ["=== АНАЛИЗ ОПТИМИЗИРОВАННОГО ПРОФИЛЯ ===", "",
   "Всего потоков: " ++ toString n, ""]

/-- Lines 84–87: the global summary. -/
def summaryLines (ts tc : Int) : List String :=
  ["=== СВОДКА ===",
   "Общее количество семплов: " ++ toString ts,
   "Общее CPU время: " ++ toString tc ++ " мкс (" ++ formatFixed2 ((tc : ℚ) / 1000) ++ " мс)",
   ""]

/-- Lines 90–98: the hardcoded comparison block, with the computed
improvement percentage `int((9087 - total_cpu_time) / 9087 * 100)`. -/
def comparisonLines (tc : Int) : List String :=
  ["=== СРАВНЕНИЕ С ПРЕДЫДУЩИМ ПРОФИЛЕМ ===",
   "Предыдущий профиль (с 60-секундной задержкой):",
   "  CPU время: 9087 мкс (9.09 мс)",
   "  Основное узкое место: NtDelayExecution (ожидание)",
   "",
   "Оптимизированный профиль (без блокировки):",
   "  CPU время: " ++ toString tc ++ " мкс (" ++ formatFixed2 ((tc : ℚ) / 1000) ++ " мс)",
   "  Улучшение: ~" ++ toString (pyInt (((9087 : ℚ) - (tc : ℚ)) / 9087 * 100)) ++ "% снижение CPU времени",
   ""]

/-- Line 100: the closing line. -/
def finalLine : String := "=== ОПТИМИЗАЦИЯ ЗАВЕРШЕНА ==="

/-- The full analysis report of a parsed document and its two totals. -/
structure AnalyzeResult where
  lines : List String
  total_samples : Int
  total_cpu_time : Int
  deriving DecidableEq

/-- Lines 22–100: the whole report for the document's thread sequence. -/
def analyzeDoc (threads : List ThreadRecord) : Except String AnalyzeResult :=
  match analyzeThreads 0 threads with
  | .error e => .error e
  | .ok (tl, ts, tc) =>
    .ok { lines := headerLines threads.length ++ tl ++ summaryLines ts tc
                    ++ comparisonLines tc ++ [finalLine],
          total_samples := ts, total_cpu_time := tc }

/-- The captured result of the shell-invoked decompression subprocess. -/
structure SubprocessResult where
  stdout : String
  stderr : String
  returncode : Int
  deriving DecidableEq

/-- The parsed top-level document: its `threads` sequence. -/
structure ProfileDocument where
  threads : List ThreadRecord
  deriving DecidableEq

/-- How a run ends: a deliberate termination with an exit status, or an
uncaught fatal error; either way the lines printed up to that point. -/
inductive RunOutcome where
  | exited : List String → Int → RunOutcome
  | crashed : List String → String → RunOutcome
  deriving DecidableEq

/-- The lines printed by a run. -/
def RunOutcome.lines : RunOutcome → List String
  | .exited l _ => l
  | .crashed l _ => l

/-- The whole script (lines 9–100), abstracting the decompression subprocess
by its captured result and the open/parse of the intermediate JSON file by
its outcome (`.error` = an uncaught load failure). -/
def runProgram (res : SubprocessResult) (parsed : Except String ProfileDocument) :
    RunOutcome :=
  let l0 := ["Распаковываем профиль..."]
  if res.returncode ≠ 0 then
    .exited (l0 ++ ["Ошибка распаковки: " ++ res.stderr]) 1
  else
    let l1 := l0 ++ ["Анализируем профиль..."]
    match parsed with
    | .error e => .crashed l1 e
    | .ok doc =>
      match analyzeDoc doc.threads with
      | .error e => .crashed l1 e
      | .ok r => .exited (l1 ++ r.lines) 0

/-! ## Concrete inputs used to settle the claims -/

/-- The spec's worked example, verbatim: `stacks = [0, 0, 1]`,
`stackTable.frame = [0, 1]`, `frameTable.func = [10, 11]`,
`funcTable.name = ["foo", "bar"]`. -/
def tClaim2 : ThreadRecord :=
  ⟨some "w", false, ⟨3, [], [], some [some 0, some 0, some 1]⟩,
   some ⟨[0, 1]⟩, ⟨[10, 11]⟩, ⟨["foo", "bar"]⟩⟩

/-- The worked example with in-range func indices `[0, 1]` instead of
`[10, 11]`. -/
def tClaim2' : ThreadRecord :=
  ⟨some "w", false, ⟨3, [], [], some [some 0, some 0, some 1]⟩,
   some ⟨[0, 1]⟩, ⟨[0, 1]⟩, ⟨["foo", "bar"]⟩⟩

/-- A nameless thread with no samples. -/
def tNameless : ThreadRecord := ⟨none, false, ⟨0, [], [], none⟩, none, ⟨[]⟩, ⟨[]⟩⟩

/-- A thread whose `length` field is negative. -/
def tNegLen : ThreadRecord := ⟨none, false, ⟨-1, [], [], none⟩, none, ⟨[]⟩, ⟨[]⟩⟩

/-- The spec's numeric example thread: `timeDeltas = [1.5, 2.5, 3.0]`,
`threadCPUDelta = [100, 200, 300]`. -/
def tDeltas : ThreadRecord :=
  ⟨some "t", false, ⟨3, [1.5, 2.5, 3.0], [100, 200, 300], none⟩, none, ⟨[]⟩, ⟨[]⟩⟩

/-- A thread on which the non-emptiness checks are observable: the stack
sequence holds the negative index `-5`, `funcTable.name` is empty. -/
def tNegStack : ThreadRecord :=
  ⟨none, false, ⟨1, [], [], some [some (-5)]⟩, some ⟨[0]⟩, ⟨[0]⟩, ⟨[]⟩⟩

/-- A thread whose `length` field (2) disagrees with the length (3) of its
delta and stack sequences. -/
def tMismatch : ThreadRecord :=
  ⟨some "X", false, ⟨2, [1, 1, 1], [5, 5, 5], some [some 0, some 0, some 0]⟩,
   some ⟨[0]⟩, ⟨[0]⟩, ⟨["f"]⟩⟩

/-! ## Helper lemmas -/

theorem pyGet_mem {α : Type} {l : List α} {i : Int} {x : α} (h : pyGet l i = some x) :
    x ∈ l := by
  unfold pyGet at h
  split at h
  · exact List.get?_mem h
  · split at h
    · exact List.get?_mem h
    · exact absurd h (by simp)

theorem pyGet_nonneg_lt {α : Type} {l : List α} {i : Int} (h0 : 0 ≤ i)
    (h1 : i < (l.length : Int)) : pyGet l i = l.get? i.toNat := by
  unfold pyGet
  rw [if_pos ⟨h0, h1⟩]

theorem pyGet_isSome {α : Type} {l : List α} {i : Int} (h0 : 0 ≤ i)
    (h1 : i < (l.length : Int)) : ∃ x, pyGet l i = some x := by
  rw [pyGet_nonneg_lt h0 h1]
  have h2 : i.toNat < l.length := by omega
  exact ⟨l.get ⟨i.toNat, h2⟩, List.get?_eq_get h2⟩

theorem resolveOne_names_nil_nonneg {frames funcs : List Int} {s : Option Int}
    (hs : 0 ≤ s.getD 0)
    (hf : ∀ v ∈ frames, 0 ≤ v) (hq : ∀ v ∈ funcs, 0 ≤ v) :
    resolveOne frames funcs [] s = .ok none := by
  cases s with
  | none => rfl
  | some si =>
    have hsi : 0 ≤ si := by simpa using hs
    by_cases h1 : si < (frames.length : Int)
    · obtain ⟨fi, hp⟩ := pyGet_isSome hsi h1
      have hfi : 0 ≤ fi := hf fi (pyGet_mem hp)
      by_cases h2 : fi < (funcs.length : Int)
      · obtain ⟨ki, hk⟩ := pyGet_isSome hfi h2
        have hki : 0 ≤ ki := hq ki (pyGet_mem hk)
        simp [resolveOne, h1, hp, h2, hk]
        exact fun h4 => absurd h4 (by omega)
      · simp [resolveOne, h1, hp, h2]
    · simp [resolveOne, h1]

theorem resolveCalls_names_nil_nonneg {frames funcs : List Int}
    (hf : ∀ v ∈ frames, 0 ≤ v) (hq : ∀ v ∈ funcs, 0 ≤ v) :
    ∀ ss : List (Option Int), (∀ s ∈ ss, 0 ≤ s.getD 0) →
      resolveCalls frames funcs [] ss = .ok []
  | [], _ => rfl
  | s :: rest, h => by
    have h1 : resolveOne frames funcs [] s = .ok none :=
      resolveOne_names_nil_nonneg (h s (by simp)) hf hq
    have h2 : resolveCalls frames funcs [] rest = .ok [] :=
      resolveCalls_names_nil_nonneg hf hq rest (fun x hx => h x (by simp [hx]))
    simp [resolveCalls, h1, h2]

theorem mem_insertByCount {p x : String × Nat} :
    ∀ {l : List (String × Nat)}, x ∈ insertByCount p l → x = p ∨ x ∈ l
  | [], h => by simpa [insertByCount] using h
  | q :: qs, h => by
    unfold insertByCount at h
    split at h
    · rcases List.mem_cons.mp h with h1 | h1
      · exact Or.inl h1
      · exact Or.inr h1
    · rcases List.mem_cons.mp h with h1 | h1
      · exact Or.inr (by simp [h1])
      · rcases mem_insertByCount h1 with h2 | h2
        · exact Or.inl h2
        · exact Or.inr (by simp [h2])

theorem pairwise_insertByCount {p : String × Nat} :
    ∀ {l : List (String × Nat)}, l.Pairwise (fun a b => b.2 ≤ a.2) →
      (insertByCount p l).Pairwise (fun a b => b.2 ≤ a.2)
  | [], _ => by simp [insertByCount]
  | q :: qs, h => by
    rcases List.pairwise_cons.mp h with ⟨hq, hqs⟩
    unfold insertByCount
    split
    · rename_i hc
      refine List.pairwise_cons.mpr ⟨?_, h⟩
      intro x hx
      rcases List.mem_cons.mp hx with h1 | h1
      · simpa [h1] using hc
      · exact le_trans (hq x h1) hc
    · rename_i hc
      refine List.pairwise_cons.mpr ⟨?_, pairwise_insertByCount hqs⟩
      intro x hx
      rcases mem_insertByCount hx with h1 | h1
      · subst h1
        omega
      · exact hq x h1

theorem pairwise_sortByCountDesc :
    ∀ l : List (String × Nat), (sortByCountDesc l).Pairwise (fun a b => b.2 ≤ a.2)
  | [] => by simp [sortByCountDesc]
  | p :: ps => pairwise_insertByCount (pairwise_sortByCountDesc ps)

theorem pairwise_mostCommon (n : Nat) (l : List String) :
    (mostCommon n l).Pairwise (fun a b => b.2 ≤ a.2) :=
  (pairwise_sortByCountDesc (counterItems l)).sublist (List.take_sublist n _)

theorem funcAnalysis_eq_unchecked (t : ThreadRecord)
    (hs : ∀ s ∈ t.samples.stack.getD [], 0 ≤ s.getD 0)
    (hfr : ∀ v ∈ t.stackTable.elim [] StackTable.frame, 0 ≤ v)
    (hfn : ∀ v ∈ t.frameTable.func, 0 ≤ v) :
    funcAnalysis t = funcAnalysisUnchecked t := by
  cases hst : t.stackTable with
  | none =>
    cases hss : t.samples.stack <;> simp [funcAnalysis, funcAnalysisUnchecked, hst, hss]
  | some st =>
    cases hss : t.samples.stack with
    | none => simp [funcAnalysis, funcAnalysisUnchecked, hst, hss]
    | some ss =>
      rw [hss] at hs
      rw [hst] at hfr
      simp only [Option.getD_some] at hs
      simp only [Option.elim_some] at hfr
      simp only [funcAnalysis, funcAnalysisUnchecked, hst, hss]
      by_cases he : ss = [] ∨ t.funcTable.name = []
      · rw [if_pos he]
        rcases he with he | he
        · subst he
          simp [resolveCalls]
        · rw [he, resolveCalls_names_nil_nonneg hfr hfn ss hs]
          simp
      · rw [if_neg he]

theorem analyzeThread_pos_eq {i : Nat} {t : ThreadRecord} (h : 0 < t.samples.length)
    {fl : List String} (hf : funcAnalysis t = .ok fl) :
    analyzeThread i t = .ok (
      ("Поток " ++ toString (i + 1) ++ ": " ++ displayName i t) ::
      ("  Основной поток: " ++ pyBool t.isMainThread) ::
      ("  Количество семплов: " ++ toString t.samples.length) ::
      ("  Общее время: " ++ formatFixed2 t.samples.timeDeltas.sum ++ " мс") ::
      ("  CPU время: " ++ toString t.samples.threadCPUDelta.sum ++ " мкс") ::
      (fl ++ [""]), t.samples.length, t.samples.threadCPUDelta.sum) := by
  simp [analyzeThread, h, hf]

theorem analyzeThread_zero_eq {i : Nat} {t : ThreadRecord} (h : ¬ 0 < t.samples.length) :
    analyzeThread i t = .ok (
      ["Поток " ++ toString (i + 1) ++ ": " ++ displayName i t,
       "  Основной поток: " ++ pyBool t.isMainThread,
       "  Количество семплов: " ++ toString t.samples.length, ""], 0, 0) := by
  simp [analyzeThread, h]

theorem analyzeThread_ok_elim {i : Nat} {t : ThreadRecord} {l : List String} {s c : Int}
    (h : analyzeThread i t = .ok (l, s, c)) :
    s = (if 0 < t.samples.length then t.samples.length else 0) ∧
    c = (if 0 < t.samples.length then t.samples.threadCPUDelta.sum else 0) ∧
    ("  Количество семплов: " ++ toString t.samples.length) ∈ l := by
  by_cases h0 : 0 < t.samples.length
  · cases hf : funcAnalysis t with
    | error e =>
      have hbad : analyzeThread i t = .error e := by simp [analyzeThread, h0, hf]
      rw [hbad] at h
      exact absurd h (by simp)
    | ok fl =>
      rw [analyzeThread_pos_eq h0 hf] at h
      simp only [Except.ok.injEq, Prod.mk.injEq] at h
      obtain ⟨hl, hs, hc⟩ := h
      subst hl
      exact ⟨by rw [if_pos h0]; exact hs.symm, by rw [if_pos h0]; exact hc.symm, by simp⟩
  · rw [analyzeThread_zero_eq h0] at h
    simp only [Except.ok.injEq, Prod.mk.injEq] at h
    obtain ⟨hl, hs, hc⟩ := h
    subst hl
    exact ⟨by rw [if_neg h0]; exact hs.symm, by rw [if_neg h0]; exact hc.symm, by simp⟩

theorem analyzeThreads_counts :
    ∀ (ths : List ThreadRecord) (i : Nat) {l : List String} {s c : Int},
    analyzeThreads i ths = .ok (l, s, c) →
    s = (ths.map (fun t => if 0 < t.samples.length then t.samples.length else 0)).sum ∧
    c = (ths.map (fun t => if 0 < t.samples.length then t.samples.threadCPUDelta.sum else 0)).sum := by
  intro ths
  induction ths with
  | nil =>
    intro i l s c h
    simp only [analyzeThreads, Except.ok.injEq, Prod.mk.injEq] at h
    obtain ⟨-, hs, hc⟩ := h
    simp [← hs, ← hc]
  | cons t rest ih =>
    intro i l s c h
    simp only [analyzeThreads] at h
    cases h1 : analyzeThread i t with
    | error e => rw [h1] at h; exact absurd h (by simp)
    | ok p =>
      obtain ⟨l1, s1, c1⟩ := p
      rw [h1] at h
      cases h2 : analyzeThreads (i + 1) rest with
      | error e => rw [h2] at h; exact absurd h (by simp)
      | ok p2 =>
        obtain ⟨l2, s2, c2⟩ := p2
        rw [h2] at h
        simp only [Except.ok.injEq, Prod.mk.injEq] at h
        obtain ⟨-, hs, hc⟩ := h
        obtain ⟨ha, hb, -⟩ := analyzeThread_ok_elim h1
        obtain ⟨ha2, hb2⟩ := ih (i + 1) h2
        subst hs hc
        simp [ha, hb, ha2, hb2]

theorem analyzeDoc_ok_elim {ths : List ThreadRecord} {r : AnalyzeResult}
    (h : analyzeDoc ths = .ok r) :
    ∃ tl, analyzeThreads 0 ths = .ok (tl, r.total_samples, r.total_cpu_time) ∧
      r.lines = headerLines ths.length ++ tl ++ summaryLines r.total_samples r.total_cpu_time
        ++ comparisonLines r.total_cpu_time ++ [finalLine] := by
  unfold analyzeDoc at h
  cases hA : analyzeThreads 0 ths with
  | error e => rw [hA] at h; exact absurd h (by simp)
  | ok p =>
    obtain ⟨tl, s, c⟩ := p
    rw [hA] at h
    simp only [Except.ok.injEq] at h
    subst h
    exact ⟨tl, rfl, rfl⟩

theorem scaledHundredths_intCast (q : ℚ) (n : ℤ) (h : q * 100 = (n : ℚ)) :
    scaledHundredths q = n := by
  simp only [scaledHundredths, h, Int.floor_intCast, sub_self]
  norm_num

theorem formatFixed2_of_intCast (q : ℚ) (n : ℤ) (h : q * 100 = (n : ℚ)) :
    formatFixed2 q =
      (if n < 0 then "-" else "") ++ toString (n.natAbs / 100) ++ "." ++ pad2 (n.natAbs % 100) := by
  simp only [formatFixed2, scaledHundredths_intCast q n h]

theorem formatFixed2_seven : formatFixed2 (7 : ℚ) = "7.00" :=
  (formatFixed2_of_intCast 7 700 (by norm_num)).trans (by decide)

theorem formatFixed2_three : formatFixed2 (3 : ℚ) = "3.00" :=
  (formatFixed2_of_intCast 3 300 (by norm_num)).trans (by decide)

theorem improvement_neg_iff (tc : Int) :
    pyInt (((9087 : ℚ) - (tc : ℚ)) / 9087 * 100) < 0 ↔ 9178 ≤ tc := by
  set q : ℚ := ((9087 : ℚ) - (tc : ℚ)) / 9087 * 100 with hq
  have hq' : q = ((9087 : ℚ) - (tc : ℚ)) * 100 / 9087 := by
    rw [hq, div_mul_eq_mul_div]
  by_cases hneg : q < 0
  · have h1 : pyInt q = ⌈q⌉ := if_pos hneg
    rw [h1]
    constructor
    · intro h2
      have h3 : q ≤ (-1 : ℚ) := by
        have h4 : ⌈q⌉ ≤ -1 := by omega
        have h5 := Int.ceil_le.mp h4
        simpa using h5
      rw [hq', div_le_iff₀ (by norm_num : (0 : ℚ) < 9087)] at h3
      have h6 : ((9087 - tc) * 100 : ℤ) ≤ -9087 := by
        have : ((9087 : ℚ) - (tc : ℚ)) * 100 ≤ -9087 := by linarith
        exact_mod_cast this
      omega
    · intro h2
      have h6 : ((9087 - tc) * 100 : ℤ) ≤ -9087 := by omega
      have h3 : q ≤ (-1 : ℚ) := by
        rw [hq', div_le_iff₀ (by norm_num : (0 : ℚ) < 9087)]
        have h7 : ((9087 : ℚ) - (tc : ℚ)) * 100 ≤ -9087 := by exact_mod_cast h6
        linarith
      have h4 : ⌈q⌉ ≤ -1 := Int.ceil_le.mpr (by simpa using h3)
      omega
  · have h1 : pyInt q = ⌊q⌋ := if_neg hneg
    have h2 : (0 : ℤ) ≤ ⌊q⌋ := Int.floor_nonneg.mpr (not_lt.mp hneg)
    rw [h1]
    constructor
    · intro h3
      omega
    · intro h3
      exfalso
      apply hneg
      rw [hq']
      apply div_neg_of_neg_of_pos _ (by norm_num : (0 : ℚ) < 9087)
      have h4 : ((tc : ℚ)) > 9087 := by
        have : (9087 : ℤ) < tc := by omega
        exact_mod_cast this
      nlinarith

/-! ## The claims -/

/-- Claim C1 (counterexample): the claim says every out-of-range index at any
resolution stage is silently skipped and raises no error.  The stack entry
`-2` is out of range for the 0-based one-entry table `stackTable.frame = [0]`,
yet it passes the code's `stack_idx < len(...)` guard and the dereference
raises an `IndexError` instead of being skipped. -/
theorem c1_counterexample :
    (¬ (0 ≤ (-2 : Int) ∧ (-2 : Int) < (([0] : List Int).length : Int))) ∧
    resolveCalls [0] [0] ["foo"] [some (-2)] = .error "IndexError" :=
  ⟨by decide, by decide⟩

/-- Claim C1 (amended): a null sample entry, or an entry/index that is at
least the length of its target table at any of the three resolution stages
(stack→frame, frame→func, func→name), is silently skipped: it resolves to no
name, raises no error, contributes nothing, and resolution continues with the
remaining samples unchanged.  (Negative indices are not skipped: the guards
only check the upper bound, so a negative index dereferences from the end of
the table or raises an `IndexError`.) -/
theorem c1_skip_null_or_high (frames funcs : List Int) (names : List String)
    (s : Option Int) (rest : List (Option Int))
    (h : s = none
      ∨ (∃ i, s = some i ∧ (frames.length : Int) ≤ i)
      ∨ (∃ i j, s = some i ∧ i < (frames.length : Int) ∧ pyGet frames i = some j ∧
          (funcs.length : Int) ≤ j)
      ∨ (∃ i j k, s = some i ∧ i < (frames.length : Int) ∧ pyGet frames i = some j ∧
          j < (funcs.length : Int) ∧ pyGet funcs j = some k ∧ (names.length : Int) ≤ k)) :
    resolveOne frames funcs names s = .ok none ∧
    resolveCalls frames funcs names (s :: rest) = resolveCalls frames funcs names rest := by
  have h1 : resolveOne frames funcs names s = .ok none := by
    rcases h with rfl | ⟨i, rfl, hi⟩ | ⟨i, j, rfl, hi, hj, hj2⟩ |
      ⟨i, j, k, rfl, hi, hj, hjl, hk, hk2⟩
    · rfl
    · simp [resolveOne, not_lt.mpr hi]
    · simp [resolveOne, hi, hj, not_lt.mpr hj2]
    · simp [resolveOne, hi, hj, hjl, hk, not_lt.mpr hk2]
  refine ⟨h1, ?_⟩
  simp [resolveCalls, h1]

/-- Claim C1 witness: the out-of-bounds stack index 5 (table length 1) is
skipped and resolution continues with the next sample. -/
theorem c1_skip_null_or_high_witness :
    resolveOne [0] [0] ["foo"] (some 5) = .ok none ∧
    resolveCalls [0] [0] ["foo"] (some 5 :: [some 0]) = resolveCalls [0] [0] ["foo"] [some 0] :=
  c1_skip_null_or_high [0] [0] ["foo"] (some 5) [some 0]
    (Or.inr (Or.inl ⟨5, rfl, by decide⟩))

/-- Claim C2 (counterexample): on the spec's own worked example the func
indices 10 and 11 are out of bounds for the two-entry `funcTable.name`, so
every sample is skipped at the func→name stage: resolution yields no counts
and no `Топ-5` lines at all, not `foo: 2, bar: 1`. -/
theorem c2_counterexample :
    resolveCalls [0, 1] [10, 11] ["foo", "bar"] [some 0, some 0, some 1] = .ok [] ∧
    funcAnalysis tClaim2 = .ok [] ∧
    funcAnalysis tClaim2 ≠
      .ok ["  Топ-5 функций по семплам:", "    foo: 2", "    bar: 1"] :=
  ⟨by decide, by decide, by decide⟩

/-- Claim C2 (amended): with in-range func indices `[0, 1]` in place of
`[10, 11]`, the worked example resolves to `["foo", "foo", "bar"]` and the
frequency report lists `foo: 2` then `bar: 1`, in descending count order. -/
theorem c2_worked_example :
    resolveCalls [0, 1] [0, 1] ["foo", "bar"] [some 0, some 0, some 1] =
      .ok ["foo", "foo", "bar"] ∧
    mostCommon 5 ["foo", "foo", "bar"] = [("foo", 2), ("bar", 1)] ∧
    funcAnalysis tClaim2' =
      .ok ["  Топ-5 функций по семплам:", "    foo: 2", "    bar: 1"] :=
  ⟨by decide, by decide, by decide⟩

/-- Claim C3 (counterexample): the claim says a nameless thread's display
name is `Thread <position>` with a 1-based position.  The first thread
(1-based position 1) is labelled `Thread 0`: the default label uses the
0-based `enumerate` index. -/
theorem c3_counterexample :
    displayName 0 tNameless = "Thread 0" ∧
    analyzeThread 0 tNameless =
      .ok (["Поток 1: Thread 0", "  Основной поток: False",
            "  Количество семплов: 0", ""], 0, 0) ∧
    ("Thread 0" : String) ≠ "Thread 1" :=
  ⟨rfl, by decide, by decide⟩

/-- Claim C3 (amended): for every thread without an explicit name field, the
resolved display name is `Thread <i>` where `i` is the thread's 0-based
position in document order (while the surrounding `Поток` label is
1-based). -/
theorem c3_default_label (i : Nat) (t : ThreadRecord) (l : List String) (s c : Int)
    (hname : t.name = none) (h : analyzeThread i t = .ok (l, s, c)) :
    l.head? = some ("Поток " ++ toString (i + 1) ++ ": " ++ ("Thread " ++ toString i)) := by
  by_cases h0 : 0 < t.samples.length
  · cases hf : funcAnalysis t with
    | error e =>
      have hbad : analyzeThread i t = .error e := by simp [analyzeThread, h0, hf]
      rw [hbad] at h
      exact absurd h (by simp)
    | ok fl =>
      rw [analyzeThread_pos_eq h0 hf] at h
      simp only [Except.ok.injEq, Prod.mk.injEq] at h
      obtain ⟨hl, -, -⟩ := h
      subst hl
      simp [displayName, hname]
  · rw [analyzeThread_zero_eq h0] at h
    simp only [Except.ok.injEq, Prod.mk.injEq] at h
    obtain ⟨hl, -, -⟩ := h
    subst hl
    simp [displayName, hname]

/-- Claim C3 witness: the nameless first thread is labelled `Thread 0`. -/
theorem c3_default_label_witness :
    (["Поток 1: Thread 0", "  Основной поток: False",
      "  Количество семплов: 0", ""] : List String).head? =
      some ("Поток " ++ toString (0 + 1) ++ ": " ++ ("Thread " ++ toString 0)) :=
  c3_default_label 0 tNameless _ 0 0 rfl (by decide)

/-- Claim C4 (counterexample): the claim says the printed improvement is
negative whenever `total_cpu_time > 9087`.  At `total_cpu_time = 9088` the
exact value `-100/9087` truncates toward zero to `0`, so the printed
improvement is `~0%`, not negative. -/
theorem c4_counterexample :
    (9087 : Int) < 9088 ∧
    pyInt (((9087 : ℚ) - ((9088 : Int) : ℚ)) / 9087 * 100) = 0 ∧
    (comparisonLines 9088).get? 7 = some "  Улучшение: ~0% снижение CPU времени" := by
  have h : pyInt (((9087 : ℚ) - ((9088 : Int) : ℚ)) / 9087 * 100) = 0 := by
    norm_num [pyInt]
  refine ⟨by decide, h, ?_⟩
  have h2 : (comparisonLines 9088).get? 7 =
      some ("  Улучшение: ~" ++ toString (pyInt (((9087 : ℚ) - ((9088 : Int) : ℚ)) / 9087 * 100))
        ++ "% снижение CPU времени") := rfl
  rw [h2, h]
  decide

/-- Claim C4 (amended): for every computed `total_cpu_time`, the printed
improvement percentage equals `(9087 - total_cpu_time) / 9087 * 100`
converted to an integer by truncation toward zero, with no clamping; the
printed value is negative exactly when `total_cpu_time ≥ 9178` (for
`9088 ≤ total_cpu_time ≤ 9177` truncation yields `0`, not a negative
value). -/
theorem c4_improvement (tc : Int) :
    (comparisonLines tc).get? 7 =
      some ("  Улучшение: ~" ++ toString (pyInt (((9087 : ℚ) - (tc : ℚ)) / 9087 * 100))
        ++ "% снижение CPU времени") ∧
    (pyInt (((9087 : ℚ) - (tc : ℚ)) / 9087 * 100) < 0 ↔ 9178 ≤ tc) :=
  ⟨rfl, improvement_neg_iff tc⟩

/-- Claim C5 (counterexample): the claim says `total_samples` equals the sum
of all per-thread sample counts.  A thread whose `length` field is `-1`
reports the count `-1` but is not accumulated (the guard is `> 0`), so the
summary total is `0` while the sum of the per-thread counts is `-1`. -/
theorem c5_counterexample :
    (analyzeDoc [tNegLen]).toOption.map (fun r => r.total_samples) = some 0 ∧
    ([tNegLen].map (fun t => t.samples.length)).sum = -1 ∧
    (0 : Int) ≠ -1 :=
  ⟨by decide, by decide, by decide⟩

/-- Claim C5 (amended): for every document the summary's `total_samples`
(resp. `total_cpu_time`) is the sum over the threads with positive sample
count of their `length` fields (resp. CPU-delta sums) — equal to the sum
over all threads whenever no thread reports a negative count, since a
zero-count thread contributes zero; `total_cpu_time` is also rendered
divided by 1000 with two decimals; and for an empty thread sequence the
header and the `Всего потоков: 0` line are still printed with both totals
zero. -/
theorem c5_totals :
    (∀ (ths : List ThreadRecord) (r : AnalyzeResult), analyzeDoc ths = .ok r →
      r.total_samples =
        (ths.map (fun t => if 0 < t.samples.length then t.samples.length else 0)).sum ∧
      r.total_cpu_time =
        (ths.map (fun t => if 0 < t.samples.length then t.samples.threadCPUDelta.sum else 0)).sum ∧
      ("Всего потоков: " ++ toString ths.length) ∈ r.lines ∧
      ("Общее количество семплов: " ++ toString r.total_samples) ∈ r.lines ∧
      ("Общее CPU время: " ++ toString r.total_cpu_time ++ " мкс (" ++
        formatFixed2 ((r.total_cpu_time : ℚ) / 1000) ++ " мс)") ∈ r.lines) ∧
    (∃ r : AnalyzeResult, analyzeDoc [] = .ok r ∧ r.total_samples = 0 ∧ r.total_cpu_time = 0 ∧
      "=== АНАЛИЗ ОПТИМИЗИРОВАННОГО ПРОФИЛЯ ===" ∈ r.lines ∧ "Всего потоков: 0" ∈ r.lines) := by
  constructor
  · intro ths r h
    obtain ⟨tl, hA, hlines⟩ := analyzeDoc_ok_elim h
    obtain ⟨hs, hc⟩ := analyzeThreads_counts ths 0 hA
    refine ⟨hs, hc, ?_, ?_, ?_⟩ <;> rw [hlines] <;>
      simp [headerLines, summaryLines, List.mem_append]
  · exact ⟨_, rfl, rfl, rfl, by decide, by decide⟩

/-- Claim C5 witness: the empty document's summary totals are zero sums. -/
theorem c5_totals_witness :
    (0 : Int) = (([] : List ThreadRecord).map
      (fun t => if 0 < t.samples.length then t.samples.length else 0)).sum ∧
    "Всего потоков: 0" ∈
      (headerLines 0 ++ [] ++ summaryLines 0 0 ++ comparisonLines 0 ++ [finalLine]) := by
  have h := c5_totals.1 [] ⟨headerLines 0 ++ [] ++ summaryLines 0 0
    ++ comparisonLines 0 ++ [finalLine], 0, 0⟩ rfl
  exact ⟨h.1, by simpa using h.2.2.1⟩

/-- Claim C6 (confirmed): for every thread with a positive sample count the
reported total wall time is the sum of `timeDeltas` rendered with two
decimals and the reported CPU time is the sum of `threadCPUDelta`; in
particular `timeDeltas = [1.5, 2.5, 3.0]` renders as `7.00`,
`threadCPUDelta = [100, 200, 300]` yields `600`, and that thread contributes
exactly `600` to `total_cpu_time`. -/
theorem c6_time_and_cpu :
    (∀ (i : Nat) (t : ThreadRecord) (l : List String) (s c : Int),
      0 < t.samples.length → analyzeThread i t = .ok (l, s, c) →
      ("  Общее время: " ++ formatFixed2 t.samples.timeDeltas.sum ++ " мс") ∈ l ∧
      ("  CPU время: " ++ toString t.samples.threadCPUDelta.sum ++ " мкс") ∈ l ∧
      c = t.samples.threadCPUDelta.sum) ∧
    tDeltas.samples.timeDeltas.sum = 7 ∧
    formatFixed2 (7 : ℚ) = "7.00" ∧
    tDeltas.samples.threadCPUDelta.sum = 600 ∧
    analyzeThread 0 tDeltas = .ok
      (["Поток 1: t", "  Основной поток: False", "  Количество семплов: 3",
        "  Общее время: 7.00 мс", "  CPU время: 600 мкс", ""], 3, 600) ∧
    (analyzeDoc [tDeltas]).toOption.map (fun r => r.total_cpu_time) = some 600 := by
  have hsum : tDeltas.samples.timeDeltas.sum = 7 := by
    norm_num [tDeltas, List.sum_cons, List.sum_nil]
  have hthread : analyzeThread 0 tDeltas = .ok
      (["Поток 1: t", "  Основной поток: False", "  Количество семплов: 3",
        "  Общее время: 7.00 мс", "  CPU время: 600 мкс", ""], 3, 600) := by
    have hfa : funcAnalysis tDeltas = .ok [] := rfl
    rw [analyzeThread_pos_eq (by decide) hfa, hsum, formatFixed2_seven]
    decide
  refine ⟨?_, hsum, formatFixed2_seven, by decide, hthread, ?_⟩
  · intro i t l s c h0 h
    cases hf : funcAnalysis t with
    | error e =>
      have hbad : analyzeThread i t = .error e := by simp [analyzeThread, h0, hf]
      rw [hbad] at h
      exact absurd h (by simp)
    | ok fl =>
      rw [analyzeThread_pos_eq h0 hf] at h
      simp only [Except.ok.injEq, Prod.mk.injEq] at h
      obtain ⟨hl, -, hc⟩ := h
      subst hl
      exact ⟨by simp, by simp, hc.symm⟩
  · simp only [analyzeDoc, analyzeThreads, hthread]
    decide

/-- Claim C6 witness: the general statement applied to the example thread. -/
theorem c6_time_and_cpu_witness :
    ("  Общее время: " ++ formatFixed2 tDeltas.samples.timeDeltas.sum ++ " мс") ∈
      ["Поток 1: t", "  Основной поток: False", "  Количество семплов: 3",
       "  Общее время: 7.00 мс", "  CPU время: 600 мкс", ""] ∧
    ("  CPU время: " ++ toString tDeltas.samples.threadCPUDelta.sum ++ " мкс") ∈
      ["Поток 1: t", "  Основной поток: False", "  Количество семплов: 3",
       "  Общее время: 7.00 мс", "  CPU время: 600 мкс", ""] ∧
    (600 : Int) = tDeltas.samples.threadCPUDelta.sum :=
  c6_time_and_cpu.1 0 tDeltas _ 3 600 (by decide) c6_time_and_cpu.2.2.2.2.1

/-- Claim C7 (confirmed): a thread whose `samples.length` is zero emits
exactly the name, main-flag and sample-count lines (followed by the blank
separator every block gets), no time/CPU/function lines, and contributes
nothing to either total. -/
theorem c7_empty_thread (i : Nat) (t : ThreadRecord) (h : t.samples.length = 0) :
    analyzeThread i t = .ok (
      ["Поток " ++ toString (i + 1) ++ ": " ++ displayName i t,
       "  Основной поток: " ++ pyBool t.isMainThread,
       "  Количество семплов: 0", ""], 0, 0) := by
  have h0 : ¬ 0 < t.samples.length := by omega
  rw [analyzeThread_zero_eq h0, h]
  rfl

/-- Claim C7 witness: the zero-sample thread's block. -/
theorem c7_empty_thread_witness :
    analyzeThread 0 tNameless = .ok (
      ["Поток " ++ toString (0 + 1) ++ ": " ++ displayName 0 tNameless,
       "  Основной поток: " ++ pyBool tNameless.isMainThread,
       "  Количество семплов: 0", ""], 0, 0) :=
  c7_empty_thread 0 tNameless rfl

/-- Claim C8 (confirmed): a nonzero decompression exit status makes the run
print the captured error stream and terminate with exit status 1 — with an
outcome independent of the parse result, i.e. the parse phase is never
consulted — while a zero exit status proceeds to the parse phase (the
`Анализируем профиль...` line is printed). -/
theorem c8_decompression_failure :
    (∀ (res : SubprocessResult) (parsed : Except String ProfileDocument),
      res.returncode ≠ 0 →
      runProgram res parsed =
        .exited ["Распаковываем профиль...", "Ошибка распаковки: " ++ res.stderr] 1) ∧
    (∀ (res : SubprocessResult) (p1 p2 : Except String ProfileDocument),
      res.returncode ≠ 0 → runProgram res p1 = runProgram res p2) ∧
    (∀ (res : SubprocessResult) (parsed : Except String ProfileDocument),
      res.returncode = 0 → "Анализируем профиль..." ∈ (runProgram res parsed).lines) := by
  refine ⟨?_, ?_, ?_⟩
  · intro res parsed h
    simp [runProgram, h]
  · intro res p1 p2 h
    simp [runProgram, h]
  · intro res parsed h
    simp only [runProgram, h]
    cases parsed with
    | error e => simp [RunOutcome.lines]
    | ok doc =>
      cases hA : analyzeDoc doc.threads with
      | error e => simp [hA, RunOutcome.lines]
      | ok r => simp [hA, RunOutcome.lines]

/-- Claim C8 witness: a failing decompression with captured stderr `boom`. -/
theorem c8_decompression_failure_witness :
    runProgram ⟨"", "boom", 1⟩ (.error "ignored") =
      .exited ["Распаковываем профиль...",
        "Ошибка распаковки: " ++ (⟨"", "boom", 1⟩ : SubprocessResult).stderr] 1 ∧
    runProgram ⟨"", "boom", 1⟩ (.error "a") = runProgram ⟨"", "boom", 1⟩ (.ok ⟨[]⟩) ∧
    "Анализируем профиль..." ∈ (runProgram ⟨"", "", 0⟩ (.error "bad json")).lines :=
  ⟨c8_decompression_failure.1 ⟨"", "boom", 1⟩ (.error "ignored") (by decide),
   c8_decompression_failure.2.1 ⟨"", "boom", 1⟩ (.error "a") (.ok ⟨[]⟩) (by decide),
   c8_decompression_failure.2.2 ⟨"", "", 0⟩ (.error "bad json") rfl⟩

/-- Claim C9 (counterexample): the claim says the extra non-emptiness checks
on the stack sequence and `funcTable.name` never change the produced output.
On a thread whose stack holds the negative entry `-5` and whose
`funcTable.name` is empty, the checked code skips resolution and emits
nothing, while the check-free variant raises an `IndexError`. -/
theorem c9_counterexample :
    funcAnalysis tNegStack = .ok [] ∧
    funcAnalysisUnchecked tNegStack = .error "IndexError" ∧
    funcAnalysis tNegStack ≠ funcAnalysisUnchecked tNegStack :=
  ⟨by decide, by decide, by decide⟩

/-- Claim C9 (amended): for a thread with a positive sample count,
function-frequency resolution is performed iff the thread's `stackTable` is
truthy and the samples block has a `stack` field; the extra non-emptiness
checks on the stack sequence and `funcTable.name` do not change the produced
output provided all stack entries and table indices are non-negative (with a
negative index they can turn an `IndexError` into a silent skip); and the
report lists the five most frequent resolved names with their counts in
descending count order. -/
theorem c9_func_resolution_guards :
    (∀ t : ThreadRecord, t.stackTable = none ∨ t.samples.stack = none →
      funcAnalysis t = .ok []) ∧
    (∀ t : ThreadRecord,
      (∀ s ∈ t.samples.stack.getD [], 0 ≤ s.getD 0) →
      (∀ v ∈ t.stackTable.elim [] StackTable.frame, 0 ≤ v) →
      (∀ v ∈ t.frameTable.func, 0 ≤ v) →
      funcAnalysis t = funcAnalysisUnchecked t) ∧
    (∀ l : List String, (mostCommon 5 l).Pairwise (fun a b => b.2 ≤ a.2)) ∧
    (∀ (t : ThreadRecord) (st : StackTable) (ss : List (Option Int)) (calls : List String),
      t.stackTable = some st → t.samples.stack = some ss →
      ss ≠ [] → t.funcTable.name ≠ [] →
      resolveCalls st.frame t.frameTable.func t.funcTable.name ss = .ok calls →
      calls ≠ [] →
      funcAnalysis t = .ok ("  Топ-5 функций по семплам:" ::
        (mostCommon 5 calls).map (fun p => "    " ++ p.1 ++ ": " ++ toString p.2))) := by
  refine ⟨?_, ?_, ?_, ?_⟩
  · intro t h
    rcases h with h | h
    · cases hss : t.samples.stack <;> simp [funcAnalysis, h, hss]
    · cases hst : t.stackTable <;> simp [funcAnalysis, hst, h]
  · exact fun t hs hfr hfn => funcAnalysis_eq_unchecked t hs hfr hfn
  · exact fun l => pairwise_mostCommon 5 l
  · intro t st ss calls h1 h2 h3 h4 h5 h6
    simp only [funcAnalysis, h1, h2]
    rw [if_neg (by simp [h3, h4])]
    simp [h5, h6]

/-- Claim C9 witness: the guards applied to concrete threads. -/
theorem c9_func_resolution_guards_witness :
    funcAnalysis tNameless = .ok [] ∧
    funcAnalysis tMismatch = funcAnalysisUnchecked tMismatch ∧
    (mostCommon 5 ["a", "b", "a"]).Pairwise (fun a b => b.2 ≤ a.2) ∧
    funcAnalysis tMismatch = .ok ("  Топ-5 функций по семплам:" ::
      (mostCommon 5 ["f", "f", "f"]).map (fun p => "    " ++ p.1 ++ ": " ++ toString p.2)) :=
  ⟨c9_func_resolution_guards.1 tNameless (Or.inl rfl),
   c9_func_resolution_guards.2.1 tMismatch (by decide) (by decide) (by decide),
   c9_func_resolution_guards.2.2.1 ["a", "b", "a"],
   c9_func_resolution_guards.2.2.2 tMismatch ⟨[0]⟩ [some 0, some 0, some 0] ["f", "f", "f"]
     rfl rfl (by decide) (by decide) (by decide) (by decide)⟩

/-- Claim C10 (confirmed): the printed and accumulated sample count comes
solely from the `length` field, while the wall/CPU sums range over the whole
`timeDeltas`/`threadCPUDelta` sequences and resolution over the whole stack
sequence; no cross-validation is performed, so a thread whose `length` field
is 2 but whose sequences have 3 entries reports count 2 alongside sums and
frequencies over 3 entries, without any error. -/
theorem c10_length_field_only :
    (∀ (i : Nat) (t : ThreadRecord) (l : List String) (s c : Int),
      analyzeThread i t = .ok (l, s, c) →
      ("  Количество семплов: " ++ toString t.samples.length) ∈ l) ∧
    (∀ (i : Nat) (t : ThreadRecord) (l : List String) (s c : Int),
      0 < t.samples.length → analyzeThread i t = .ok (l, s, c) →
      s = t.samples.length ∧ c = t.samples.threadCPUDelta.sum) ∧
    tMismatch.samples.length = 2 ∧
    tMismatch.samples.timeDeltas.length = 3 ∧
    tMismatch.samples.threadCPUDelta.length = 3 ∧
    analyzeThread 0 tMismatch = .ok
      (["Поток 1: X", "  Основной поток: False", "  Количество семплов: 2",
        "  Общее время: 3.00 мс", "  CPU время: 15 мкс",
        "  Топ-5 функций по семплам:", "    f: 3", ""], 2, 15) := by
  have hsum : tMismatch.samples.timeDeltas.sum = 3 := by
    norm_num [tMismatch, List.sum_cons, List.sum_nil]
  have hfa : funcAnalysis tMismatch = .ok ["  Топ-5 функций по семплам:", "    f: 3"] := by
    decide
  have hthread : analyzeThread 0 tMismatch = .ok
      (["Поток 1: X", "  Основной поток: False", "  Количество семплов: 2",
        "  Общее время: 3.00 мс", "  CPU время: 15 мкс",
        "  Топ-5 функций по семплам:", "    f: 3", ""], 2, 15) := by
    rw [analyzeThread_pos_eq (by decide) hfa, hsum, formatFixed2_three]
    decide
  refine ⟨?_, ?_, by decide, by decide, by decide, hthread⟩
  · intro i t l s c h
    exact (analyzeThread_ok_elim h).2.2
  · intro i t l s c h0 h
    obtain ⟨hs, hc, -⟩ := analyzeThread_ok_elim h
    rw [if_pos h0] at hs
    rw [if_pos h0] at hc
    exact ⟨hs, hc⟩

/-- Claim C10 witness: the count line of the mismatched thread comes from its
`length` field while the sums cover all three entries. -/
theorem c10_length_field_only_witness :
    ("  Количество семплов: " ++ toString tMismatch.samples.length) ∈
      ["Поток 1: X", "  Основной поток: False", "  Количество семплов: 2",
       "  Общее время: 3.00 мс", "  CPU время: 15 мкс",
       "  Топ-5 функций по семплам:", "    f: 3", ""] ∧
    (2 : Int) = tMismatch.samples.length ∧
    (15 : Int) = tMismatch.samples.threadCPUDelta.sum :=
  ⟨c10_length_field_only.1 0 tMismatch _ 2 15 c10_length_field_only.2.2.2.2.2,
   c10_length_field_only.2.1 0 tMismatch _ 2 15 (by decide)
     c10_length_field_only.2.2.2.2.2⟩
